import Mathlib

/-!
Verification development for the `surf` HTTP-client middleware core
(`src/client.rs`, `src/headers.rs`).

Two complementary models are embedded:

* an ownership ("world") model of `Arc`-backed clients, faithful to
  `Client::clone`, `Client::with`, `Client::with_http_client` and the
  reference-count manipulations performed by `Client::send`
  (`src/client.rs` lines 35-48, 85-93, 112-117, 131-146), and
* a trace model of the middleware chain traversal driven by
  `Client::send`, instrumented middleware recording a shared log.

Parts of the crate that are referenced by `client.rs` but whose source is
not available (`crate::middleware::Next`, `RequestBuilder`, response-body
decoding, URL parsing, the `http::HeaderMap` storage) are modelled from
the specification, as marked on each definition.
-/

namespace Surf

/-! ## Ownership model of `Arc`-backed clients -/

/-- A reference-counted middleware-stack container: one `Arc<Vec<Arc<dyn
Middleware>>>` cell.  `count` is the strong count of the outer `Arc`;
`stack` holds identifiers of the (shared) middleware instances. -/
structure Cell where
  count : Nat
  stack : List Nat
deriving DecidableEq, Repr

/-- The heap of middleware-stack containers, indexed by position. -/
structure World where
  cells : List Cell
deriving DecidableEq, Repr

/-- The `Client` struct of `src/client.rs` lines 29-33: a shared transport
handle (identified by a number) plus a reference to a middleware-stack
container (an index into the world's cells). -/
structure Client where
  http_client : Nat
  middleware : Nat
deriving DecidableEq, Repr

/-- Allocate a fresh container with strong count 1 (an `Arc::new`). -/
def World.alloc (w : World) (stack : List Nat) : World × Nat :=
  (⟨w.cells ++ [⟨1, stack⟩]⟩, w.cells.length)

/-- Look up a container. -/
def World.getCell (w : World) (i : Nat) : Option Cell :=
  w.cells[i]?

/-- Overwrite a container. -/
def World.setCell (w : World) (i : Nat) (c : Cell) : World :=
  ⟨w.cells.set i c⟩

/-- The middleware stack a client currently references. -/
def World.stackOf (w : World) (c : Client) : List Nat :=
  ((w.getCell c.middleware).getD ⟨0, []⟩).stack

/-- The strong count of the stack container a client references. -/
def World.countOf (w : World) (c : Client) : Nat :=
  ((w.getCell c.middleware).getD ⟨0, []⟩).count

/-- Identifier of the optional default logger middleware
(`crate::middleware::Logger`, `src/client.rs` line 90). -/
def loggerId : Nat := 0

/-- The initial middleware stack built by `Client::with_http_client`
(`src/client.rs` lines 88-91): at most the optional logger, depending on
the `middleware-logger` feature flag. -/
def defaultMiddleware (cfgLogger : Bool) : List Nat :=
  if cfgLogger then [loggerId] else []

/-- Model of `Client::with_http_client` (`src/client.rs` lines 85-93):
stores the transport handle and allocates a fresh stack container holding
the default middleware. -/
def Client.with_http_client (cfgLogger : Bool) (w : World) (hc : Nat) :
    World × Client :=
  match w.alloc (defaultMiddleware cfgLogger) with
  | (w', idx) => (w', ⟨hc, idx⟩)

/-- Model of `Client::clone` (`src/client.rs` lines 42-47): shares the
transport handle, and wraps a fresh `Arc` (strong count 1) around a new
`Vec` holding the same middleware instances; the original container is
untouched. -/
def Client.clone (w : World) (c : Client) : World × Client :=
  match w.alloc (w.stackOf c) with
  | (w', idx) => (w', ⟨c.http_client, idx⟩)

/-- Model of `Client::with` (`src/client.rs` lines 112-117):
`Arc::get_mut` succeeds exactly when the container's strong count is 1, in
which case the middleware is pushed onto the end of the stack; otherwise
the `.expect(..)` panics, modelled as `none`. -/
def Client.with' (w : World) (c : Client) (m : Nat) :
    Option (World × Client) :=
  match w.getCell c.middleware with
  | none => none
  | some cell =>
    if cell.count = 1 then
      some (w.setCell c.middleware ⟨1, cell.stack ++ [m]⟩, c)
    else none

/-- Increment a container's strong count (an `Arc::clone`). -/
def World.bump (w : World) (i : Nat) : World :=
  match w.getCell i with
  | none => w
  | some cell => w.setCell i ⟨cell.count + 1, cell.stack⟩

/-- Decrement a container's strong count (dropping an `Arc` handle). -/
def World.unbump (w : World) (i : Nat) : World :=
  match w.getCell i with
  | none => w
  | some cell => w.setCell i ⟨cell.count - 1, cell.stack⟩

/-- Model of the prologue of `Client::send` (`src/client.rs` line 134):
`self.middleware.clone()` moves a second `Arc` handle to the stack
container into the returned future, raising its strong count while the
future is alive. -/
def Client.send_start (w : World) (c : Client) : World :=
  w.bump c.middleware

/-- Model of dropping the future returned by `Client::send` after it has
been driven to completion: the `Arc` handle captured at line 134 is
released. -/
def Client.send_finish (w : World) (c : Client) : World :=
  w.unbump c.middleware

/-- Model of the client handle that `Client::send` passes down the chain
(`src/client.rs` line 143): after capturing the transport and middleware
handles, `send` constructs `Client::with_http_client(http_client)` — a
fresh client sharing the transport but carrying only the default stack —
and hands that (not `self`) to `Next::run`. -/
def Client.send_chain_client (cfgLogger : Bool) (w : World) (c : Client) :
    World × Client :=
  Client.with_http_client cfgLogger (Client.send_start w c) c.http_client

/-! ## Trace model of the middleware chain traversal -/

/-- Requests are opaque to the chain machinery. -/
abbrev Req := Nat

/-- The client handle threaded through the chain, opaque here. -/
abbrev Cl := Nat

/-- Result of a traversal: a response body, or an error. -/
abbrev MRes := Except Nat String

/-- One entry of the shared instrumentation log: a middleware's
pre-continuation logic ran, a middleware advanced its continuation, the
terminal handler ran, or a middleware's post-continuation logic ran. -/
inductive Event where
  | pre (i : Nat)
  | adv (i : Nat)
  | term
  | post (i : Nat)
deriving DecidableEq, Repr

/-- A middleware as a semantic capability: given the request, the client
handle and the continuation, produce a result together with the log
events it emitted. -/
abbrev MwFun :=
  Req → Cl → (Req → Cl → MRes × List Event) → MRes × List Event

/-- The terminal handler baked into `Client::send` (`src/client.rs` lines
136-140): converts the request, invokes the transport, converts the
result back. The transport behaviour is the parameter `tr`; the log
records the invocation. -/
def mkTerminal (tr : Req → MRes) : Req → Cl → MRes × List Event :=
  fun req _ => (tr req, [Event.term])

/-- Modelled from the spec (§4.2): `Next::run` of the middleware module,
whose source is not under `src/`. If the remaining sequence is non-empty,
invoke its head with a continuation over the rest; if empty, invoke the
terminal handler. -/
def Next.run (terminal : Req → Cl → MRes × List Event) :
    List MwFun → Req → Cl → MRes × List Event
  | [], req, c => terminal req c
  | m :: rest, req, c => m req c (Next.run terminal rest)

/-- Behaviour description of one instrumented middleware: its identifier,
how many times it advances its continuation, and whether it fails
outright instead. -/
structure MwSpec where
  id : Nat
  advances : Nat
  fail : Option Nat
deriving DecidableEq, Repr

/-- The response body produced by a middleware that short-circuits
without advancing. -/
def ownBody (_ : Nat) : String := "own"

/-- Advance the continuation `n` times in sequence, logging each advance,
stopping at (and propagating unchanged) the first error, and otherwise
returning the last successful body. -/
def advLoop (i : Nat) (k : Req → Cl → MRes × List Event)
    (req : Req) (c : Cl) : Nat → String → MRes × List Event
  | 0, last => (Except.ok last, [])
  | n + 1, _ =>
    match k req c with
    | (Except.error e, t) => (Except.error e, Event.adv i :: t)
    | (Except.ok b, t) =>
      match advLoop i k req c n b with
      | (r2, t2) => (r2, Event.adv i :: (t ++ t2))

/-- Interpret an instrumented middleware: log entry; either fail
immediately, short-circuit with an own response, or advance the given
number of times, propagating the first error unchanged (skipping the
post-continuation logic, as `?` does) and otherwise logging exit. -/
def interp (s : MwSpec) : MwFun := fun req c k =>
  match s.fail with
  | some e => (Except.error e, [Event.pre s.id])
  | none =>
    match s.advances with
    | 0 => (Except.ok (ownBody s.id), [Event.pre s.id, Event.post s.id])
    | n + 1 =>
      match advLoop s.id k req c (n + 1) "" with
      | (Except.error e, t) => (Except.error e, Event.pre s.id :: t)
      | (Except.ok b, t) =>
        (Except.ok b, Event.pre s.id :: (t ++ [Event.post s.id]))

/-- A transport stub that always succeeds with body "ok". -/
def okTransport : Req → MRes := fun _ => Except.ok "ok"

/-- A transport stub that always fails with error `e`. -/
def errTransport (e : Nat) : Req → MRes := fun _ => Except.error e

/-- An instrumented middleware that always succeeds, from a pair
(identifier, number of advances). -/
def mkOk (p : Nat × Nat) : MwSpec := ⟨p.1, p.2, none⟩

/-- An instrumented middleware that fails with error `e` without
advancing. -/
def mkFail (i e : Nat) : MwSpec := ⟨i, 0, some e⟩

/-- Model of the chain traversal performed by one `Client::send` call
(`src/client.rs` lines 131-146): build a `Next` over the full middleware
sequence and the terminal handler, run it, and re-wrap a successful
response (`Ok(Response::new(res.into()))`) while returning an error
unchanged (`?`). -/
def Client.sendRun (tr : Req → MRes) (specs : List MwSpec) (req : Req) :
    MRes × List Event :=
  match Next.run (mkTerminal tr) (specs.map interp) req 0 with
  | (Except.error e, t) => (Except.error e, t)
  | (Except.ok b, t) => (Except.ok b, t)

/-- The nested ("onion") trace the spec prescribes for an instrumented
chain given as (identifier, advances) pairs: entry, then for each advance
one full sub-trace of the remainder, then exit; the empty chain is a
single terminal invocation. -/
def onionTrace : List (Nat × Nat) → List Event
  | [] => [Event.term]
  | (i, k) :: rest =>
    Event.pre i ::
      ((List.replicate k (Event.adv i :: onionTrace rest)).flatten ++
        [Event.post i])

/-- The response body a fully successful instrumented chain yields. -/
def chainBody : List (Nat × Nat) → String
  | [] => "ok"
  | (i, 0) :: _ => ownBody i
  | (_, _ + 1) :: rest => chainBody rest

/-- Event predicate: is this an advance record? -/
def isAdvEv : Event → Bool
  | Event.adv _ => true
  | _ => false

/-- Event predicate: is this a terminal-handler record? -/
def isTermEv : Event → Bool
  | Event.term => true
  | _ => false

/-- Event predicate: is this a post-continuation record? -/
def isPostEv : Event → Bool
  | Event.post _ => true
  | _ => false

/-- Count the events satisfying a predicate. -/
def countE (p : Event → Bool) : List Event → Nat
  | [] => 0
  | e :: rest => (if p e then 1 else 0) + countE p rest

/-- Number of terminal-handler invocations recorded in a log. -/
def countTerm (t : List Event) : Nat := countE isTermEv t

/-- Number of advance choices recorded in a log. -/
def countAdv (t : List Event) : Nat := countE isAdvEv t

/-- Number of post-continuation records in a log. -/
def countPost (t : List Event) : Nat := countE isPostEv t

/-- Drop the advance records from a log, keeping pre, terminal and post
records. -/
def stripAdv (t : List Event) : List Event :=
  t.filter fun e => !(isAdvEv e)

/-- Product of the advance counts of a chain description. -/
def prodAdv : List (Nat × Nat) → Nat
  | [] => 1
  | (_, k) :: rest => k * prodAdv rest

/-! ## Convenience verb methods -/

/-- The HTTP methods exposed as convenience verbs on `Client`
(`src/client.rs` lines 260-455). -/
inductive HttpMethod where
  | get
  | head
  | post
  | put
  | delete
  | connect
  | options
  | trace
  | patch
deriving DecidableEq, Repr

/-- A parsed target URI, kept as its source text. -/
abbrev Uri := String

/-- Whether a character list begins with an explicit http scheme. -/
def hasScheme : List Char → Bool
  | 'h' :: 't' :: 't' :: 'p' :: rest =>
    match rest with
    | ':' :: '/' :: '/' :: _ => true
    | 's' :: ':' :: '/' :: '/' :: _ => true
    | _ => false
  | _ => false

/-- Modelled from the spec (§1, §4.3): URL parsing is an external
collaborator, out of scope beyond its interface; a target parses exactly
when it carries an explicit scheme.  A `none` result feeds the
`.unwrap()` panic site in each verb method. -/
def parseUri (s : String) : Option Uri :=
  if hasScheme s.data then some s else none

/-- Modelled from the spec (§4.3, §6): the request builder returned by a
verb method — a request of the given method and target, bound to the
issuing client for later dispatch.  The builder module is not under
`src/`. -/
structure RequestBuilder where
  method : HttpMethod
  uri : Uri
  client : Client
deriving DecidableEq, Repr

/-- Model of `Client::get` (`src/client.rs` lines 260-263): parse the
target (`none`, i.e. a panic, on failure), then build a `GET` request
builder bound to `self.clone()`. -/
def Client.get (w : World) (c : Client) (uri : String) :
    Option (World × RequestBuilder) :=
  match parseUri uri with
  | none => none
  | some u =>
    match Client.clone w c with
    | (w', c') => some (w', ⟨HttpMethod.get, u, c'⟩)

/-- Model of `Client::head` (`src/client.rs` lines 284-287). -/
def Client.head (w : World) (c : Client) (uri : String) :
    Option (World × RequestBuilder) :=
  match parseUri uri with
  | none => none
  | some u =>
    match Client.clone w c with
    | (w', c') => some (w', ⟨HttpMethod.head, u, c'⟩)

/-- Model of `Client::post` (`src/client.rs` lines 308-311). -/
def Client.post (w : World) (c : Client) (uri : String) :
    Option (World × RequestBuilder) :=
  match parseUri uri with
  | none => none
  | some u =>
    match Client.clone w c with
    | (w', c') => some (w', ⟨HttpMethod.post, u, c'⟩)

/-- Model of `Client::put` (`src/client.rs` lines 332-335). -/
def Client.put (w : World) (c : Client) (uri : String) :
    Option (World × RequestBuilder) :=
  match parseUri uri with
  | none => none
  | some u =>
    match Client.clone w c with
    | (w', c') => some (w', ⟨HttpMethod.put, u, c'⟩)

/-- Model of `Client::delete` (`src/client.rs` lines 356-359). -/
def Client.delete (w : World) (c : Client) (uri : String) :
    Option (World × RequestBuilder) :=
  match parseUri uri with
  | none => none
  | some u =>
    match Client.clone w c with
    | (w', c') => some (w', ⟨HttpMethod.delete, u, c'⟩)

/-- Model of `Client::connect` (`src/client.rs` lines 380-383). -/
def Client.connect (w : World) (c : Client) (uri : String) :
    Option (World × RequestBuilder) :=
  match parseUri uri with
  | none => none
  | some u =>
    match Client.clone w c with
    | (w', c') => some (w', ⟨HttpMethod.connect, u, c'⟩)

/-- Model of `Client::options` (`src/client.rs` lines 404-407). -/
def Client.options (w : World) (c : Client) (uri : String) :
    Option (World × RequestBuilder) :=
  match parseUri uri with
  | none => none
  | some u =>
    match Client.clone w c with
    | (w', c') => some (w', ⟨HttpMethod.options, u, c'⟩)

/-- Model of `Client::trace` (`src/client.rs` lines 428-431). -/
def Client.trace (w : World) (c : Client) (uri : String) :
    Option (World × RequestBuilder) :=
  match parseUri uri with
  | none => none
  | some u =>
    match Client.clone w c with
    | (w', c') => some (w', ⟨HttpMethod.trace, u, c'⟩)

/-- Model of `Client::patch` (`src/client.rs` lines 452-455). -/
def Client.patch (w : World) (c : Client) (uri : String) :
    Option (World × RequestBuilder) :=
  match parseUri uri with
  | none => none
  | some u =>
    match Client.clone w c with
    | (w', c') => some (w', ⟨HttpMethod.patch, u, c'⟩)

/-- The property a verb method is specified to have: a target that fails
to parse aborts (no builder), and a target that parses yields a builder
of the given method over the parsed target, bound to a duplicate of the
issuing client (same transport, same middleware stack). -/
def verbOk (f : World → Client → String → Option (World × RequestBuilder))
    (m : HttpMethod) : Prop :=
  ∀ (w : World) (c : Client) (t : String),
    (parseUri t = none → f w c t = none) ∧
    ∀ u, parseUri t = some u →
      ∃ w' b, f w c t = some (w', b) ∧ b.method = m ∧ b.uri = u ∧
        b.client.http_client = c.http_client ∧
        w'.stackOf b.client = w.stackOf c

/-! ## Header accessor -/

/-- Lower-case an ASCII letter, leaving other characters unchanged. -/
def lowerChar (c : Char) : Char :=
  if 'A' ≤ c ∧ c ≤ 'Z' then Char.ofNat (c.toNat + 32) else c

/-- The case-normal form of a header name. -/
def lowerName (s : String) : String := ⟨s.data.map lowerChar⟩

/-- First value bound to a key in an association list. -/
def findVal : List (String × String) → String → Option String
  | [], _ => none
  | (a, b) :: rest, k => if a = k then some b else findVal rest k

/-- Replace in place the value bound to a key, keeping its position. -/
def replaceVal : List (String × String) → String → String →
    List (String × String)
  | [], _, _ => []
  | (a, b) :: rest, k, v =>
    if a = k then (a, v) :: rest else (a, b) :: replaceVal rest k v

/-- Modelled from the spec (§4.4, §6): the underlying header storage
(the external `http::HeaderMap` that `src/headers.rs` wraps) — names are
matched case-insensitively (stored in normal form), and entries keep the
insertion order of first-seen keys. -/
structure HeaderMap where
  entries : List (String × String)
deriving DecidableEq, Repr

/-- Case-insensitive lookup in the underlying storage. -/
def HeaderMap.get (m : HeaderMap) (k : String) : Option String :=
  findVal m.entries (lowerName k)

/-- Insert with replace in the underlying storage: an existing key keeps
its position and yields its previous value; a new key is appended. -/
def HeaderMap.insert (m : HeaderMap) (k v : String) :
    HeaderMap × Option String :=
  let lk := lowerName k
  match findVal m.entries lk with
  | some old => (⟨replaceVal m.entries lk v⟩, some old)
  | none => (⟨m.entries ++ [(lk, v)]⟩, none)

/-- The `Headers` accessor of `src/headers.rs` lines 7-9: a view over a
request/response's header storage. -/
structure Headers where
  headers : HeaderMap
deriving DecidableEq, Repr

/-- Model of `Headers::get` (`src/headers.rs` lines 17-20): delegates to
the storage's (case-insensitive) lookup. -/
def Headers.get (h : Headers) (k : String) : Option String :=
  h.headers.get k

/-- Model of `Headers::insert` (`src/headers.rs` lines 22-27): delegates
to the storage, returning the previous value if any. -/
def Headers.insert (h : Headers) (k v : String) : Headers × Option String :=
  match h.headers.insert k v with
  | (m, old) => (⟨m⟩, old)

/-- Model of `Headers::iter` / `Iter::next` (`src/headers.rs` lines
29-32 and 53-61): yields the storage's key/value pairs in storage
order. -/
def Headers.iter (h : Headers) : List (String × String) :=
  h.headers.entries

/-- Build a header map by performing a sequence of inserts on an empty
map. -/
def buildFrom (ops : List (String × String)) : HeaderMap :=
  ops.foldl (fun m p => (m.insert p.1 p.2).1) ⟨[]⟩

/-- The first-seen occurrence order of a list of keys, relative to a set
of keys already seen. -/
def firstSeenAux : List String → List String → List String
  | [], _ => []
  | k :: rest, seen =>
    if k ∈ seen then firstSeenAux rest seen
    else k :: firstSeenAux rest (k :: seen)

/-- The keys of a header map, in storage order. -/
def keysOf (m : HeaderMap) : List String :=
  m.entries.map Prod.fst

/-! ## Body-consuming helpers -/

/-- Modelled from the spec (§3, §6): the protocol-level response a
successful `send` yields — status code and body bytes (the response
module is not under `src/`). -/
structure Resp where
  status : Nat
  body : List Nat
deriving DecidableEq, Repr

/-- Modelled from the spec (§7): the error taxonomy visible to callers
of the body-consuming helpers — a middleware/transport failure
propagated out of `send`, or a body-decode failure, as distinct kinds. -/
inductive SurfError where
  | send (e : Nat)
  | decode (e : Nat)
deriving DecidableEq, Repr

/-- Modelled from the spec (§6): UTF-8 text decoding of a body, external
to the core; modelled on the ASCII fragment. -/
def decodeString (r : Resp) : Except Nat String :=
  if r.body.all (fun b => b < 128) then
    Except.ok ⟨r.body.map Char.ofNat⟩
  else Except.error 0

/-- Model of `Client::recv_bytes` (`src/client.rs` lines 160-163): send,
propagating a send failure, then read the raw body bytes.  The outcome
of `self.send(..)` for this request is the argument `sres`. -/
def recv_bytes (sres : Except Nat Resp) : Except SurfError (List Nat) :=
  match sres with
  | Except.error e => Except.error (SurfError.send e)
  | Except.ok r => Except.ok r.body

/-- Model of `Client::recv_string` (`src/client.rs` lines 177-180):
send, propagating a send failure, then decode the body as text, any
decode failure surfacing as the decode kind. -/
def recv_string (sres : Except Nat Resp) : Except SurfError String :=
  match sres with
  | Except.error e => Except.error (SurfError.send e)
  | Except.ok r =>
    match decodeString r with
    | Except.error d => Except.error (SurfError.decode d)
    | Except.ok s => Except.ok s

/-- Model of `Client::recv_json` (`src/client.rs` lines 200-206): send,
propagating a send failure, then decode the body with the caller's JSON
decoder for `T`, any decode failure surfacing as the decode kind. -/
def recv_json {T : Type} (dec : List Nat → Except Nat T)
    (sres : Except Nat Resp) : Except SurfError T :=
  match sres with
  | Except.error e => Except.error (SurfError.send e)
  | Except.ok r =>
    match dec r.body with
    | Except.error d => Except.error (SurfError.decode d)
    | Except.ok v => Except.ok v

/-- Model of `Client::recv_form` (`src/client.rs` lines 233-239): send,
propagating a send failure, then decode the body with the caller's
form decoder for `T`, any decode failure surfacing as the decode kind. -/
def recv_form {T : Type} (dec : List Nat → Except Nat T)
    (sres : Except Nat Resp) : Except SurfError T :=
  match sres with
  | Except.error e => Except.error (SurfError.send e)
  | Except.ok r =>
    match dec r.body with
    | Except.error d => Except.error (SurfError.decode d)
    | Except.ok v => Except.ok v

/-! ## Ownership-model lemmas -/

theorem getCell_lt {w : World} {i : Nat} {cell : Cell}
    (h : w.getCell i = some cell) : i < w.cells.length :=
  (List.getElem?_eq_some.mp h).1

theorem stackOf_of_getCell {w : World} {c : Client} {cell : Cell}
    (h : w.getCell c.middleware = some cell) : w.stackOf c = cell.stack := by
  simp [World.stackOf, h]

theorem clone_eq {w : World} {c : Client} {cell : Cell}
    (h : w.getCell c.middleware = some cell) :
    Client.clone w c
      = (⟨w.cells ++ [⟨1, cell.stack⟩]⟩, ⟨c.http_client, w.cells.length⟩) := by
  simp [Client.clone, World.alloc, stackOf_of_getCell h]

/-- C1: with a uniquely-owned stack container (strong count 1), `with`
appends the middleware to the end of the stack and returns the updated
client; with a container shared by more than one owner, `with` aborts
(models the `expect` panic) without mutating anything. -/
theorem c1_with_append_or_abort (w : World) (c : Client) (m : Nat)
    (cell : Cell) (h : w.getCell c.middleware = some cell) :
    (cell.count = 1 →
      Client.with' w c m
        = some (w.setCell c.middleware ⟨1, cell.stack ++ [m]⟩, c) ∧
      (w.setCell c.middleware ⟨1, cell.stack ++ [m]⟩).stackOf c
        = cell.stack ++ [m]) ∧
    (1 < cell.count → Client.with' w c m = none) := by
  have hlt : c.middleware < w.cells.length := getCell_lt h
  constructor
  · intro h1
    constructor
    · simp [Client.with', h, h1]
    · simp [World.stackOf, World.getCell, World.setCell,
        List.getElem?_set_eq_of_lt _ hlt]
  · intro h2
    simp [Client.with', h, Nat.ne_of_gt h2]

/-- Witness for C1 at a concrete world: a uniquely-owned client gets its
middleware appended, and sharing the container makes `with` abort. -/
theorem c1_witness :
    Client.with' ⟨[⟨1, [2]⟩]⟩ ⟨7, 0⟩ 5 = some (⟨[⟨1, [2, 5]⟩]⟩, ⟨7, 0⟩) ∧
    Client.with' ⟨[⟨2, [2]⟩]⟩ ⟨7, 0⟩ 5 = none := by
  constructor
  · have h := c1_with_append_or_abort ⟨[⟨1, [2]⟩]⟩ ⟨7, 0⟩ 5 ⟨1, [2]⟩
      (by decide)
    exact ((h.1 rfl).1).trans (by decide)
  · exact (c1_with_append_or_abort ⟨[⟨2, [2]⟩]⟩ ⟨7, 0⟩ 5 ⟨2, [2]⟩
      (by decide)).2 (by decide)

/-- Counterexample to C2: build a fresh client, duplicate it via
`clone`, then register middleware on the original — the call succeeds
and mutates the stack instead of failing loudly, because `clone` wraps a
fresh `Arc` around a copied `Vec` and leaves the original container
uniquely owned. -/
theorem c2_counterexample :
    Client.with'
        (Client.clone (Client.with_http_client false ⟨[]⟩ 7).1
          (Client.with_http_client false ⟨[]⟩ 7).2).1
        (Client.with_http_client false ⟨[]⟩ 7).2 5
      = some (⟨[⟨1, [5]⟩, ⟨1, []⟩]⟩, ⟨7, 0⟩) := by decide

/-- C2 as amended: `with` fails exactly while the stack container is
shared (strong count above 1).  Duplicating via `clone` copies the
container, so afterwards both the original and the duplicate remain
uniquely owned and `with` succeeds on both; issuing `send` raises the
count (the returned future holds a second handle), so `with` fails while
that future is alive, and succeeds again once it is dropped. -/
theorem c2_with_shared_only (w : World) (c : Client) (cell : Cell) (m : Nat)
    (h : w.getCell c.middleware = some cell) (hpos : 0 < cell.count) :
    ((Client.with' w c m).isSome = true ↔ cell.count = 1) ∧
    (cell.count = 1 →
      (Client.with' (Client.clone w c).1 c m).isSome = true ∧
      (Client.with' (Client.clone w c).1 (Client.clone w c).2 m).isSome
        = true) ∧
    Client.with' (Client.send_start w c) c m = none ∧
    (cell.count = 1 →
      (Client.with' (Client.send_finish (Client.send_start w c) c) c
          m).isSome = true) := by
  have hlt : c.middleware < w.cells.length := getCell_lt h
  refine ⟨?_, ?_, ?_, ?_⟩
  · by_cases hc : cell.count = 1 <;> simp [Client.with', h, hc]
  · intro h1
    rw [clone_eq h]
    constructor
    · simp [Client.with', World.getCell,
        List.getElem?_append_left hlt, show w.cells[c.middleware]? = some cell from h, h1]
    · simp [Client.with', World.getCell, List.getElem?_concat_length]
  · have hb : Client.send_start w c
        = w.setCell c.middleware ⟨cell.count + 1, cell.stack⟩ := by
      simp [Client.send_start, World.bump, h]
    rw [hb]
    simp [Client.with', World.getCell, World.setCell,
      List.getElem?_set_eq_of_lt _ hlt, Nat.succ_ne_succ,
      Nat.pos_iff_ne_zero.mp hpos]
  · intro h1
    have hb : Client.send_start w c
        = w.setCell c.middleware ⟨cell.count + 1, cell.stack⟩ := by
      simp [Client.send_start, World.bump, h]
    have hu : Client.send_finish (Client.send_start w c) c
        = (Client.send_start w c).setCell c.middleware
            ⟨cell.count, cell.stack⟩ := by
      rw [hb]
      simp [Client.send_finish, World.unbump, World.getCell, World.setCell,
        List.getElem?_set_eq_of_lt _ hlt]
    rw [hu, hb]
    simp [Client.with', World.getCell, World.setCell, List.set_set,
      List.getElem?_set_eq_of_lt _ hlt, h1]

/-- Witness for the amended C2 at a concrete world: `with` succeeds on a
uniquely-owned client, still succeeds on both handles after `clone`,
fails while a `send` future is alive, and succeeds again after it is
dropped. -/
theorem c2_with_shared_only_witness :
    ((Client.with' ⟨[⟨1, [2]⟩]⟩ ⟨3, 0⟩ 9).isSome = true ↔ (1 : Nat) = 1) ∧
    ((1 : Nat) = 1 →
      (Client.with' (Client.clone ⟨[⟨1, [2]⟩]⟩ ⟨3, 0⟩).1 ⟨3, 0⟩ 9).isSome
        = true ∧
      (Client.with' (Client.clone ⟨[⟨1, [2]⟩]⟩ ⟨3, 0⟩).1
          (Client.clone ⟨[⟨1, [2]⟩]⟩ ⟨3, 0⟩).2 9).isSome = true) ∧
    Client.with' (Client.send_start ⟨[⟨1, [2]⟩]⟩ ⟨3, 0⟩) ⟨3, 0⟩ 9 = none ∧
    ((1 : Nat) = 1 →
      (Client.with'
          (Client.send_finish (Client.send_start ⟨[⟨1, [2]⟩]⟩ ⟨3, 0⟩) ⟨3, 0⟩)
          ⟨3, 0⟩ 9).isSome = true) :=
  c2_with_shared_only ⟨[⟨1, [2]⟩]⟩ ⟨3, 0⟩ ⟨1, [2]⟩ 9 (by decide) (by decide)

/-- C3: `clone` shares the transport handle, allocates a structurally
independent stack container holding the same middleware instances, and
leaves the original untouched; registering further middleware on the
duplicate succeeds and leaves the original's chain unchanged while the
duplicate's chain holds the shared middleware followed by the new one. -/
theorem c3_clone_independent (w : World) (c : Client) (cell : Cell)
    (m : Nat) (h : w.getCell c.middleware = some cell) :
    (Client.clone w c).2.http_client = c.http_client ∧
    (Client.clone w c).2.middleware ≠ c.middleware ∧
    (Client.clone w c).1.stackOf (Client.clone w c).2 = cell.stack ∧
    (Client.clone w c).1.stackOf c = cell.stack ∧
    ∃ w2 d, Client.with' (Client.clone w c).1 (Client.clone w c).2 m
        = some (w2, d) ∧
      d.http_client = c.http_client ∧
      w2.stackOf c = cell.stack ∧
      w2.stackOf d = cell.stack ++ [m] := by
  have hlt : c.middleware < w.cells.length := getCell_lt h
  rw [clone_eq h]
  refine ⟨rfl, Nat.ne_of_gt hlt, ?_, ?_, ?_⟩
  · simp [World.stackOf, World.getCell, List.getElem?_concat_length]
  · simp [World.stackOf, World.getCell, List.getElem?_append_left hlt,
      show w.cells[c.middleware]? = some cell from h]
  · refine ⟨(⟨(w.cells ++ [(⟨1, cell.stack⟩ : Cell)]).set w.cells.length
        ⟨1, cell.stack ++ [m]⟩⟩ : World),
        (⟨c.http_client, w.cells.length⟩ : Client), ?_, rfl, ?_, ?_⟩
    · simp [Client.with', World.getCell, World.setCell,
        List.getElem?_concat_length]
    · simp [World.stackOf, World.getCell,
        List.getElem?_set_ne (Nat.ne_of_gt hlt),
        List.getElem?_append_left hlt,
        show w.cells[c.middleware]? = some cell from h]
    · have hlt2 : w.cells.length < (w.cells ++ [(⟨1, cell.stack⟩ : Cell)]).length := by
        simp
      simp [World.stackOf, World.getCell,
        List.getElem?_set_eq_of_lt _ hlt2]

/-- Witness for C3 at a concrete world. -/
theorem c3_witness :
    (Client.clone ⟨[⟨1, [4]⟩]⟩ ⟨6, 0⟩).2.http_client = 6 ∧
    (Client.clone ⟨[⟨1, [4]⟩]⟩ ⟨6, 0⟩).2.middleware ≠ 0 ∧
    (Client.clone ⟨[⟨1, [4]⟩]⟩ ⟨6, 0⟩).1.stackOf
        (Client.clone ⟨[⟨1, [4]⟩]⟩ ⟨6, 0⟩).2 = [4] ∧
    (Client.clone ⟨[⟨1, [4]⟩]⟩ ⟨6, 0⟩).1.stackOf ⟨6, 0⟩ = [4] ∧
    ∃ w2 d, Client.with' (Client.clone ⟨[⟨1, [4]⟩]⟩ ⟨6, 0⟩).1
        (Client.clone ⟨[⟨1, [4]⟩]⟩ ⟨6, 0⟩).2 9 = some (w2, d) ∧
      d.http_client = 6 ∧
      w2.stackOf ⟨6, 0⟩ = [4] ∧
      w2.stackOf d = [4, 9] :=
  c3_clone_independent ⟨[⟨1, [4]⟩]⟩ ⟨6, 0⟩ ⟨1, [4]⟩ 9 (by decide)

/-- C10: the client handle `send` passes down the chain is freshly
constructed: it shares the originating client's transport handle, refers
to a new stack container, and carries only the default middleware (at
most the optional logger) — not the middleware registered on the
originating client, whose stack is left unchanged. -/
theorem c10_chain_client_default_stack (cfg : Bool) (w : World)
    (c : Client) (cell : Cell) (h : w.getCell c.middleware = some cell) :
    (Client.send_chain_client cfg w c).2.http_client = c.http_client ∧
    (Client.send_chain_client cfg w c).2.middleware ≠ c.middleware ∧
    (Client.send_chain_client cfg w c).1.stackOf
        (Client.send_chain_client cfg w c).2 = defaultMiddleware cfg ∧
    (Client.send_chain_client cfg w c).1.stackOf c = cell.stack ∧
    (cell.stack ≠ defaultMiddleware cfg →
      (Client.send_chain_client cfg w c).1.stackOf
          (Client.send_chain_client cfg w c).2
        ≠ (Client.send_chain_client cfg w c).1.stackOf c) := by
  have hlt : c.middleware < w.cells.length := getCell_lt h
  have h' : w.cells[c.middleware]? = some cell := h
  have hb : Client.send_chain_client cfg w c
      = (⟨(w.cells.set c.middleware ⟨cell.count + 1, cell.stack⟩)
            ++ [⟨1, defaultMiddleware cfg⟩]⟩,
         ⟨c.http_client, w.cells.length⟩) := by
    simp [Client.send_chain_client, Client.send_start, World.bump, h',
      Client.with_http_client, World.alloc, World.setCell, World.getCell]
  rw [hb]
  have hlt' : c.middleware
      < (w.cells.set c.middleware ⟨cell.count + 1, cell.stack⟩).length := by
    simp only [List.length_set]
    exact hlt
  have hchain : (⟨(w.cells.set c.middleware ⟨cell.count + 1, cell.stack⟩)
        ++ [⟨1, defaultMiddleware cfg⟩]⟩ : World).stackOf
        ⟨c.http_client, w.cells.length⟩ = defaultMiddleware cfg := by
    have : ((w.cells.set c.middleware ⟨cell.count + 1, cell.stack⟩)
        ++ [(⟨1, defaultMiddleware cfg⟩ : Cell)])[w.cells.length]?
        = some ⟨1, defaultMiddleware cfg⟩ := by
      have hc := List.getElem?_concat_length
        (w.cells.set c.middleware ⟨cell.count + 1, cell.stack⟩)
        (⟨1, defaultMiddleware cfg⟩ : Cell)
      rw [List.length_set] at hc
      exact hc
    simp [World.stackOf, World.getCell, this]
  have horig : (⟨(w.cells.set c.middleware ⟨cell.count + 1, cell.stack⟩)
        ++ [⟨1, defaultMiddleware cfg⟩]⟩ : World).stackOf c = cell.stack := by
    simp [World.stackOf, World.getCell, List.getElem?_append_left hlt',
      List.getElem?_set_eq_of_lt _ hlt]
  refine ⟨rfl, Nat.ne_of_gt hlt, hchain, horig, ?_⟩
  intro hne
  rw [hchain, horig]
  exact Ne.symm hne

/-- Witness for C10 at a concrete world: an originating client with a
registered middleware stack [3, 4]; the chain client carries only the
default logger stack. -/
theorem c10_witness :
    (Client.send_chain_client true ⟨[⟨1, [3, 4]⟩]⟩ ⟨9, 0⟩).2.http_client
      = 9 ∧
    (Client.send_chain_client true ⟨[⟨1, [3, 4]⟩]⟩ ⟨9, 0⟩).2.middleware
      ≠ 0 ∧
    (Client.send_chain_client true ⟨[⟨1, [3, 4]⟩]⟩ ⟨9, 0⟩).1.stackOf
        (Client.send_chain_client true ⟨[⟨1, [3, 4]⟩]⟩ ⟨9, 0⟩).2
      = defaultMiddleware true ∧
    (Client.send_chain_client true ⟨[⟨1, [3, 4]⟩]⟩ ⟨9, 0⟩).1.stackOf ⟨9, 0⟩
      = [3, 4] ∧
    (([3, 4] : List Nat) ≠ defaultMiddleware true →
      (Client.send_chain_client true ⟨[⟨1, [3, 4]⟩]⟩ ⟨9, 0⟩).1.stackOf
          (Client.send_chain_client true ⟨[⟨1, [3, 4]⟩]⟩ ⟨9, 0⟩).2
        ≠ (Client.send_chain_client true ⟨[⟨1, [3, 4]⟩]⟩ ⟨9, 0⟩).1.stackOf
            ⟨9, 0⟩) :=
  c10_chain_client_default_stack true ⟨[⟨1, [3, 4]⟩]⟩ ⟨9, 0⟩ ⟨1, [3, 4]⟩
    (by decide)

/-! ## Trace-model lemmas -/

theorem sendRun_eq (tr : Req → MRes) (specs : List MwSpec) (req : Req) :
    Client.sendRun tr specs req
      = Next.run (mkTerminal tr) (specs.map interp) req 0 := by
  unfold Client.sendRun
  split <;> (rename_i heq; exact heq.symm)

theorem advLoop_ok (i : Nat) (k : Req → Cl → MRes × List Event) (req : Req)
    (c : Cl) (b0 : String) (t0 : List Event)
    (hk : k req c = (Except.ok b0, t0)) :
    ∀ (n : Nat) (last : String),
      advLoop i k req c (n + 1) last
        = (Except.ok b0, (List.replicate (n + 1) (Event.adv i :: t0)).flatten) := by
  intro n
  induction n with
  | zero => intro last; simp [advLoop, hk]
  | succ n ih =>
    intro last
    conv_lhs => rw [advLoop]
    rw [hk]
    dsimp only
    rw [ih b0]
    simp [List.replicate_succ]

theorem advLoop_err (i : Nat) (k : Req → Cl → MRes × List Event)
    (req : Req) (c : Cl) (e : Nat) (t0 : List Event)
    (hk : k req c = (Except.error e, t0)) (n : Nat) (last : String) :
    advLoop i k req c (n + 1) last = (Except.error e, Event.adv i :: t0) := by
  conv_lhs => rw [advLoop]
  rw [hk]

theorem run_ok (l : List (Nat × Nat)) :
    ∀ (req : Req) (c : Cl),
      Next.run (mkTerminal okTransport) ((l.map mkOk).map interp) req c
        = (Except.ok (chainBody l), onionTrace l) := by
  induction l with
  | nil => intro req c; rfl
  | cons p rest ih =>
    rcases p with ⟨i, k⟩
    intro req c
    cases k with
    | zero => simp [Next.run, interp, mkOk, chainBody, onionTrace]
    | succ n =>
      simp only [List.map_cons, Next.run]
      rw [show interp (mkOk (i, n + 1)) = interp ⟨i, n + 1, none⟩ from rfl]
      simp only [interp]
      rw [advLoop_ok i _ req c (chainBody rest) (onionTrace rest)
        (ih req c) n ""]
      simp [chainBody, onionTrace]

theorem stripAdv_onion_ones (ids : List Nat) :
    stripAdv (onionTrace (ids.map fun i => (i, 1)))
      = ids.map Event.pre ++ [Event.term] ++ ids.reverse.map Event.post := by
  induction ids with
  | nil => rfl
  | cons i rest ih =>
    simp only [List.map_cons, onionTrace, List.replicate_one,
      List.flatten_cons, List.flatten_nil, List.append_nil]
    simp [stripAdv, isAdvEv, List.filter_append] at ih ⊢
    simp [ih]

theorem countE_append (p : Event → Bool) (a b : List Event) :
    countE p (a ++ b) = countE p a + countE p b := by
  induction a with
  | nil => simp [countE]
  | cons e rest ih => simp [countE, ih]; omega

theorem countE_flatten_replicate (p : Event → Bool) (k : Nat)
    (L : List Event) :
    countE p (List.replicate k L).flatten = k * countE p L := by
  induction k with
  | zero => simp [countE]
  | succ k ih =>
    simp [List.replicate_succ, countE_append, ih, Nat.succ_mul]
    omega

theorem countTerm_onion (l : List (Nat × Nat)) :
    countTerm (onionTrace l) = prodAdv l := by
  induction l with
  | nil => rfl
  | cons p rest ih =>
    rcases p with ⟨i, k⟩
    simp [onionTrace, countTerm, countE, countE_append,
      countE_flatten_replicate, isTermEv, prodAdv] at ih ⊢
    simp [ih]

theorem chainBody_ones_zero (i : Nat) (pfx : List Nat) :
    chainBody ((pfx.map fun j => (j, 1)) ++ [(i, 0)]) = ownBody i := by
  induction pfx with
  | nil => rfl
  | cons j rest ih => simpa [chainBody] using ih

theorem prodAdv_ones_zero (i : Nat) (pfx : List Nat) :
    prodAdv ((pfx.map fun j => (j, 1)) ++ [(i, 0)]) = 0 := by
  induction pfx with
  | nil => rfl
  | cons j rest ih => simpa [prodAdv] using ih

theorem run_errTerm (e : Nat) :
    ∀ (ids : List Nat) (req : Req) (c : Cl),
      Next.run (mkTerminal (errTransport e))
          ((ids.map fun i => mkOk (i, 1)).map interp) req c
        = (Except.error e,
            (ids.map fun i => [Event.pre i, Event.adv i]).flatten
              ++ [Event.term]) := by
  intro ids
  induction ids with
  | nil => intro req c; rfl
  | cons i rest ih =>
    intro req c
    have hK := ih req c
    simp only [List.map_cons, Next.run]
    rw [show interp (mkOk (i, 1)) = interp ⟨i, 1, none⟩ from rfl]
    simp only [interp, advLoop, hK]
    simp

theorem run_failMw (i e : Nat) (tail : List MwSpec) (tr : Req → MRes) :
    ∀ (ids : List Nat) (req : Req) (c : Cl),
      Next.run (mkTerminal tr)
          (((ids.map fun j => mkOk (j, 1)) ++ mkFail i e :: tail).map interp)
          req c
        = (Except.error e,
            (ids.map fun j => [Event.pre j, Event.adv j]).flatten
              ++ [Event.pre i]) := by
  intro ids
  induction ids with
  | nil =>
    intro req c
    simp [Next.run, interp, mkFail]
  | cons j rest ih =>
    intro req c
    simp only [List.map_cons, List.cons_append, Next.run]
    rw [show interp (mkOk (j, 1)) = interp ⟨j, 1, none⟩ from rfl]
    simp only [interp, List.append_eq]
    rw [advLoop_err j _ req c e _ (ih req c) 0 ""]
    simp

theorem countTerm_preadv (ids : List Nat) :
    countTerm ((ids.map fun j => [Event.pre j, Event.adv j]).flatten) = 0 := by
  induction ids with
  | nil => rfl
  | cons j rest ih =>
    simp only [List.map_cons, List.flatten_cons, countTerm] at ih ⊢
    simp [countE_append, countE, isTermEv, ih]

theorem countPost_preadv (ids : List Nat) :
    countPost ((ids.map fun j => [Event.pre j, Event.adv j]).flatten) = 0 := by
  induction ids with
  | nil => rfl
  | cons j rest ih =>
    simp only [List.map_cons, List.flatten_cons, countPost] at ih ⊢
    simp [countE_append, countE, isPostEv, ih]

/-- C4: a `send` call traverses instrumented middleware in onion order —
the trace equals the spec's nested expansion (each advance replays the
whole remainder of the chain in place, so every invocation obeys the same
nested ordering), and for a chain in which every middleware advances once
the log (advance records aside) is exactly the pre-continuation records
in registration order, one terminal invocation, and the post-continuation
records in reverse registration order. -/
theorem c4_onion_ordering (l : List (Nat × Nat)) (req : Req)
    (ids : List Nat) (req2 : Req) :
    (Client.sendRun okTransport (l.map mkOk) req).2 = onionTrace l ∧
    stripAdv (Client.sendRun okTransport
        ((ids.map fun i => (i, 1)).map mkOk) req2).2
      = ids.map Event.pre ++ [Event.term] ++ ids.reverse.map Event.post := by
  constructor
  · rw [sendRun_eq, run_ok l req 0]
  · rw [sendRun_eq, run_ok (ids.map fun i => (i, 1)) req2 0]
    exact stripAdv_onion_ones ids

/-- Counterexample to C5: in the chain [middleware 1 advancing twice,
middleware 2 never advancing], middleware 1 chooses to advance twice yet
the terminal handler is invoked zero times — the number of
terminal-handler invocations does not equal the number of advance
choices, and in particular a middleware that advances twice does not
cause two terminal-handler invocations. -/
theorem c5_counterexample :
    countTerm (Client.sendRun okTransport [mkOk (1, 2), mkOk (2, 0)] 0).2
      = 0 ∧
    countAdv (Client.sendRun okTransport [mkOk (1, 2), mkOk (2, 0)] 0).2
      = 2 ∧
    countTerm (Client.sendRun okTransport [mkOk (1, 2), mkOk (2, 0)] 0).2
      ≠ countAdv (Client.sendRun okTransport [mkOk (1, 2), mkOk (2, 0)] 0).2 := by
  decide

/-- C5 as amended: per `send` call the number of terminal-handler
invocations equals the number of times the continuation is advanced past
the *last* middleware — for instrumented middleware advancing aᵢ times
per invocation, the product of the aᵢ.  In particular a sole middleware
advancing k times causes exactly k terminal invocations, and a chain
whose last middleware never advances produces that middleware's own
response with zero terminal invocations. -/
theorem c5_terminal_count (l : List (Nat × Nat)) (req : Req) (i k : Nat)
    (req2 : Req) (pfx : List Nat) (req3 : Req) :
    countTerm (Client.sendRun okTransport (l.map mkOk) req).2 = prodAdv l ∧
    countTerm (Client.sendRun okTransport [mkOk (i, k)] req2).2 = k ∧
    (Client.sendRun okTransport
        (((pfx.map fun j => (j, 1)) ++ [(i, 0)]).map mkOk) req3).1
      = Except.ok (ownBody i) ∧
    countTerm (Client.sendRun okTransport
        (((pfx.map fun j => (j, 1)) ++ [(i, 0)]).map mkOk) req3).2 = 0 := by
  refine ⟨?_, ?_, ?_, ?_⟩
  · rw [sendRun_eq, run_ok l req 0]
    exact countTerm_onion l
  · have h := countTerm_onion [(i, k)]
    rw [show (([mkOk (i, k)] : List MwSpec)) = [(i, k)].map mkOk from rfl,
      sendRun_eq, run_ok [(i, k)] req2 0]
    simpa [prodAdv] using h
  · rw [sendRun_eq, run_ok ((pfx.map fun j => (j, 1)) ++ [(i, 0)]) req3 0]
    simp [chainBody_ones_zero]
  · rw [sendRun_eq, run_ok ((pfx.map fun j => (j, 1)) ++ [(i, 0)]) req3 0]
    simp [countTerm_onion, prodAdv_ones_zero]

/-- C6: the first failure anywhere in the chain aborts the traversal and
reaches the `send` caller unchanged.  A failing terminal handler behind a
chain of pass-through middleware yields exactly that error, exactly one
terminal invocation (no implicit retry) and no post-continuation records
(immediate abort); a failing middleware yields exactly its error, with
none of the deeper middleware or the terminal handler ever invoked, under
any transport behaviour. -/
theorem c6_error_propagation (ids : List Nat) (e : Nat) (req : Req)
    (i : Nat) (tail : List MwSpec) (tr : Req → MRes) (req2 : Req) :
    Client.sendRun (errTransport e) (ids.map fun j => mkOk (j, 1)) req
      = (Except.error e,
          (ids.map fun j => [Event.pre j, Event.adv j]).flatten
            ++ [Event.term]) ∧
    countTerm (Client.sendRun (errTransport e)
        (ids.map fun j => mkOk (j, 1)) req).2 = 1 ∧
    countPost (Client.sendRun (errTransport e)
        (ids.map fun j => mkOk (j, 1)) req).2 = 0 ∧
    Client.sendRun tr ((ids.map fun j => mkOk (j, 1)) ++ mkFail i e :: tail)
        req2
      = (Except.error e,
          (ids.map fun j => [Event.pre j, Event.adv j]).flatten
            ++ [Event.pre i]) ∧
    countTerm (Client.sendRun tr
        ((ids.map fun j => mkOk (j, 1)) ++ mkFail i e :: tail) req2).2 = 0 ∧
    countPost (Client.sendRun tr
        ((ids.map fun j => mkOk (j, 1)) ++ mkFail i e :: tail) req2).2 = 0 := by
  have hterm := run_errTerm e ids req 0
  have hfail := run_failMw i e tail tr ids req2 0
  refine ⟨?_, ?_, ?_, ?_, ?_, ?_⟩
  · rw [sendRun_eq, hterm]
  · rw [sendRun_eq, hterm]
    show countE isTermEv
        ((ids.map fun j => [Event.pre j, Event.adv j]).flatten
          ++ [Event.term]) = 1
    rw [countE_append,
      show countE isTermEv
          ((ids.map fun j => [Event.pre j, Event.adv j]).flatten) = 0
        from countTerm_preadv ids]
    rfl
  · rw [sendRun_eq, hterm]
    show countE isPostEv
        ((ids.map fun j => [Event.pre j, Event.adv j]).flatten
          ++ [Event.term]) = 0
    rw [countE_append,
      show countE isPostEv
          ((ids.map fun j => [Event.pre j, Event.adv j]).flatten) = 0
        from countPost_preadv ids]
    rfl
  · rw [sendRun_eq, hfail]
  · rw [sendRun_eq, hfail]
    show countE isTermEv
        ((ids.map fun j => [Event.pre j, Event.adv j]).flatten
          ++ [Event.pre i]) = 0
    rw [countE_append,
      show countE isTermEv
          ((ids.map fun j => [Event.pre j, Event.adv j]).flatten) = 0
        from countTerm_preadv ids]
    rfl
  · rw [sendRun_eq, hfail]
    show countE isPostEv
        ((ids.map fun j => [Event.pre j, Event.adv j]).flatten
          ++ [Event.pre i]) = 0
    rw [countE_append,
      show countE isPostEv
          ((ids.map fun j => [Event.pre j, Event.adv j]).flatten) = 0
        from countPost_preadv ids]
    rfl

/-! ## Verb-method lemmas -/

theorem verb_property (m : HttpMethod) :
    verbOk (fun w c uri =>
      match parseUri uri with
      | none => none
      | some u =>
        match Client.clone w c with
        | (w', c') => some (w', ⟨m, u, c'⟩)) m := by
  intro w c t
  constructor
  · intro hp
    simp only [hp]
  · intro u hu
    simp only [hu]
    have hcl : Client.clone w c
        = (⟨w.cells ++ [⟨1, w.stackOf c⟩]⟩,
           ⟨c.http_client, w.cells.length⟩) := by
      simp [Client.clone, World.alloc]
    rw [hcl]
    refine ⟨⟨w.cells ++ [⟨1, w.stackOf c⟩]⟩,
      ⟨m, u, ⟨c.http_client, w.cells.length⟩⟩, rfl, rfl, rfl, rfl, ?_⟩
    simp [World.stackOf, World.getCell, List.getElem?_concat_length]

/-- C7: each convenience verb method parses the target into a request of
the corresponding HTTP method bound to a duplicate of this client and
returns a builder; a target that fails to parse aborts (the modelled
panic) instead of yielding any propagated error value. -/
theorem c7_verb_methods :
    verbOk Client.get HttpMethod.get ∧
    verbOk Client.head HttpMethod.head ∧
    verbOk Client.post HttpMethod.post ∧
    verbOk Client.put HttpMethod.put ∧
    verbOk Client.delete HttpMethod.delete ∧
    verbOk Client.connect HttpMethod.connect ∧
    verbOk Client.options HttpMethod.options ∧
    verbOk Client.trace HttpMethod.trace ∧
    verbOk Client.patch HttpMethod.patch :=
  ⟨verb_property HttpMethod.get, verb_property HttpMethod.head,
   verb_property HttpMethod.post, verb_property HttpMethod.put,
   verb_property HttpMethod.delete, verb_property HttpMethod.connect,
   verb_property HttpMethod.options, verb_property HttpMethod.trace,
   verb_property HttpMethod.patch⟩

/-- Witness for C7 at concrete targets: a malformed target aborts, a
well-formed one yields a `GET` builder bound to a duplicate client. -/
theorem c7_witness :
    Client.get ⟨[⟨1, [2]⟩]⟩ ⟨5, 0⟩ "nourl" = none ∧
    ∃ w' b, Client.get ⟨[⟨1, [2]⟩]⟩ ⟨5, 0⟩ "https://x" = some (w', b) ∧
      b.method = HttpMethod.get ∧ b.uri = "https://x" ∧
      b.client.http_client = 5 ∧
      w'.stackOf b.client = World.stackOf ⟨[⟨1, [2]⟩]⟩ ⟨5, 0⟩ := by
  constructor
  · exact (c7_verb_methods.1 ⟨[⟨1, [2]⟩]⟩ ⟨5, 0⟩ "nourl").1 (by decide)
  · exact (c7_verb_methods.1 ⟨[⟨1, [2]⟩]⟩ ⟨5, 0⟩ "https://x").2 "https://x"
      (by decide)

/-! ## Header-accessor lemmas -/

theorem findVal_isSome_iff (l : List (String × String)) (k : String) :
    (findVal l k).isSome = true ↔ k ∈ l.map Prod.fst := by
  induction l with
  | nil => simp [findVal]
  | cons p rest ih =>
    rcases p with ⟨a, b⟩
    by_cases h : a = k
    · simp [findVal, h]
    · simp only [findVal, if_neg h, List.map_cons, List.mem_cons]
      rw [ih]
      constructor
      · exact fun hm => Or.inr hm
      · intro hm
        rcases hm with hm | hm
        · exact absurd hm.symm h
        · exact hm

theorem keysOf_replaceVal (l : List (String × String)) (k v : String) :
    (replaceVal l k v).map Prod.fst = l.map Prod.fst := by
  induction l with
  | nil => rfl
  | cons p rest ih =>
    rcases p with ⟨a, b⟩
    by_cases h : a = k <;> simp [replaceVal, h, ih]

theorem firstSeenAux_congr (l : List String) :
    ∀ s1 s2 : List String, (∀ x, x ∈ s1 ↔ x ∈ s2) →
      firstSeenAux l s1 = firstSeenAux l s2 := by
  induction l with
  | nil => intro s1 s2 h; rfl
  | cons k rest ih =>
    intro s1 s2 h
    by_cases hk : k ∈ s1
    · have hk2 : k ∈ s2 := (h k).mp hk
      simp only [firstSeenAux, if_pos hk, if_pos hk2]
      exact ih s1 s2 h
    · have hk2 : k ∉ s2 := fun hh => hk ((h k).mpr hh)
      simp only [firstSeenAux, if_neg hk, if_neg hk2]
      have := ih (k :: s1) (k :: s2) (by intro x; simp [List.mem_cons, h x])
      rw [this]

theorem keysOf_build (ops : List (String × String)) :
    ∀ m : HeaderMap,
      keysOf (ops.foldl (fun m p => (m.insert p.1 p.2).1) m)
        = keysOf m
          ++ firstSeenAux (ops.map fun p => lowerName p.1) (keysOf m) := by
  induction ops with
  | nil => intro m; simp [firstSeenAux]
  | cons p rest ih =>
    intro m
    rcases p with ⟨k, v⟩
    simp only [List.foldl_cons, List.map_cons]
    rcases hf : findVal m.entries (lowerName k) with _ | old
    · have hmem : lowerName k ∉ keysOf m := by
        have h1 := findVal_isSome_iff m.entries (lowerName k)
        rw [hf] at h1
        simpa [keysOf] using h1
      have hins : (m.insert k v).1 = ⟨m.entries ++ [(lowerName k, v)]⟩ := by
        simp [HeaderMap.insert, hf]
      rw [hins, ih]
      have hkeys : keysOf (⟨m.entries ++ [(lowerName k, v)]⟩ : HeaderMap)
          = keysOf m ++ [lowerName k] := by
        simp [keysOf]
      rw [hkeys]
      rw [firstSeenAux_congr (rest.map fun p => lowerName p.1)
        (keysOf m ++ [lowerName k]) (lowerName k :: keysOf m)
        (by intro x; simp [List.mem_append, List.mem_cons, or_comm])]
      simp [firstSeenAux, hmem]
    · have hmem : lowerName k ∈ keysOf m := by
        have h1 := findVal_isSome_iff m.entries (lowerName k)
        rw [hf] at h1
        simpa [keysOf] using h1
      have hins : (m.insert k v).1
          = ⟨replaceVal m.entries (lowerName k) v⟩ := by
        simp [HeaderMap.insert, hf]
      rw [hins, ih]
      have hkeys : keysOf (⟨replaceVal m.entries (lowerName k) v⟩ : HeaderMap)
          = keysOf m := by
        simp [keysOf, keysOf_replaceVal]
      rw [hkeys]
      simp [firstSeenAux, hmem]

/-- C8: the header accessor matches keys case-insensitively (`get` agrees
on any two spellings with the same case-normal form), and iterating over
a map built by any sequence of inserts yields its keys in the insertion
order of first-seen keys. -/
theorem c8_headers (h : Headers) (k1 k2 : String)
    (hk : lowerName k1 = lowerName k2) (ops : List (String × String)) :
    Headers.get h k1 = Headers.get h k2 ∧
    (Headers.iter ⟨buildFrom ops⟩).map Prod.fst
      = firstSeenAux (ops.map fun p => lowerName p.1) [] := by
  constructor
  · simp [Headers.get, HeaderMap.get, hk]
  · have := keysOf_build ops ⟨[]⟩
    simpa [buildFrom, keysOf, Headers.iter] using this

/-- Witness for C8: two spellings of a header name resolve to the same
value, and a concrete insert sequence iterates in first-seen order. -/
theorem c8_witness :
    Headers.get ⟨⟨[("a", "1")]⟩⟩ "A" = Headers.get ⟨⟨[("a", "1")]⟩⟩ "a" ∧
    (Headers.iter ⟨buildFrom [("A", "1"), ("b", "2"), ("a", "3")]⟩).map
        Prod.fst
      = firstSeenAux
          ([("A", "1"), ("b", "2"), ("a", "3")].map fun p => lowerName p.1)
          [] :=
  c8_headers ⟨⟨[("a", "1")]⟩⟩ "A" "a" (by decide)
    [("A", "1"), ("b", "2"), ("a", "3")]

/-! ## Body-consuming helper lemmas -/

/-- C9: each body-consuming helper behaves as `send` followed by the
corresponding body-decoding step — a `send` failure is returned as the
send kind with its cause intact, a decode failure after a successful
`send` is surfaced as the decode kind, and the two kinds are distinct. -/
theorem c9_recv_helpers {T : Type} (e : Nat) (r : Resp) (s : String)
    (d : Nat) (dec : List Nat → Except Nat T) (v : T) :
    recv_bytes (Except.error e) = Except.error (SurfError.send e) ∧
    recv_string (Except.error e) = Except.error (SurfError.send e) ∧
    recv_json dec (Except.error e) = Except.error (SurfError.send e) ∧
    recv_form dec (Except.error e) = Except.error (SurfError.send e) ∧
    recv_bytes (Except.ok r) = Except.ok r.body ∧
    (decodeString r = Except.ok s →
      recv_string (Except.ok r) = Except.ok s) ∧
    (decodeString r = Except.error d →
      recv_string (Except.ok r) = Except.error (SurfError.decode d)) ∧
    (dec r.body = Except.ok v → recv_json dec (Except.ok r) = Except.ok v) ∧
    (dec r.body = Except.error d →
      recv_json dec (Except.ok r) = Except.error (SurfError.decode d)) ∧
    (dec r.body = Except.ok v → recv_form dec (Except.ok r) = Except.ok v) ∧
    (dec r.body = Except.error d →
      recv_form dec (Except.ok r) = Except.error (SurfError.decode d)) ∧
    (∀ d2 e2 : Nat, SurfError.decode d2 ≠ SurfError.send e2) := by
  refine ⟨rfl, rfl, rfl, rfl, rfl, ?_, ?_, ?_, ?_, ?_, ?_, ?_⟩
  · intro hd; simp [recv_string, hd]
  · intro hd; simp [recv_string, hd]
  · intro hd; simp [recv_json, hd]
  · intro hd; simp [recv_json, hd]
  · intro hd; simp [recv_form, hd]
  · intro hd; simp [recv_form, hd]
  · intro d2 e2 hd
    exact SurfError.noConfusion hd

/-- Witness for C9 at concrete bodies: an ASCII body decodes to its
text, a non-ASCII body surfaces the decode kind, and a failed send
surfaces the send kind with its cause. -/
theorem c9_witness :
    recv_string (Except.ok ⟨200, [104, 105]⟩) = Except.ok "hi" ∧
    recv_string (Except.ok ⟨200, [200]⟩)
      = Except.error (SurfError.decode 0) ∧
    recv_bytes (Except.error 4) = Except.error (SurfError.send 4) := by
  refine ⟨?_, ?_, ?_⟩
  · exact (c9_recv_helpers 4 ⟨200, [104, 105]⟩ "hi" 9
      (fun _ => Except.ok (7 : Nat)) 7).2.2.2.2.2.1 rfl
  · exact (c9_recv_helpers 4 ⟨200, [200]⟩ "x" 0
      (fun _ => Except.ok (7 : Nat)) 7).2.2.2.2.2.2.1 rfl
  · exact (c9_recv_helpers 4 ⟨200, [200]⟩ "x" 0
      (fun _ => Except.ok (7 : Nat)) 7).1

end Surf
